import Mathlib

/-!
Verification of the action-command engine of `actionista-todoist`
(`src/actionista/todoist/action_commands.py`): the predicate evaluator
`filter_tasks`, its argument adaptors, the special `-is`/`-due` filters and
the `reschedule` action, shallowly embedded in Lean.

Python task records are mappings from attribute names to values (strings,
integers, datetimes, nested mappings, or null), modelled by `Value` below.
Python exceptions are modelled with `Except Err`.  The engine is
single-threaded; the shared mutable comparison value that `get_value`
coerces via `nonlocal value` is modelled by threading the value as explicit
state through the per-task evaluation loop.
-/

namespace ActionCmds

/-- Decidable equality for `Except`, so closed runs of the embedded engine
can be checked by `decide`. -/
instance {ε α : Type} [DecidableEq ε] [DecidableEq α] : DecidableEq (Except ε α) := fun x y =>
  match x, y with
  | .error e, .error f =>
    if h : e = f then .isTrue (h ▸ rfl) else .isFalse (fun hc => h (Except.error.inj hc))
  | .ok a, .ok b =>
    if h : a = b then .isTrue (h ▸ rfl) else .isFalse (fun hc => h (Except.ok.inj hc))
  | .error _, .ok _ => .isFalse (fun hc => Except.noConfusion hc)
  | .ok _, .error _ => .isFalse (fun hc => Except.noConfusion hc)

/-- Kinds of Python exceptions raised by the embedded code paths. -/
inductive Err where
  | attributeError (msg : String)
  | valueError (msg : String)
  | typeError (msg : String)
  | keyError (msg : String)
  | indexError (msg : String)
  deriving DecidableEq, Repr

mutual
/-- A Python value as used in task records: None, int, str, a datetime
(modelled as an abstract integer instant), or a nested dict. -/
inductive Value where
  | vNone : Value
  | vInt (n : Int) : Value
  | vStr (s : String) : Value
  | vDate (t : Int) : Value
  | vDict (d : ValueDict) : Value
  deriving DecidableEq, Repr

/-- A nested Python dict value (e.g. the v7.1 Sync API `due` sub-mapping). -/
inductive ValueDict where
  | nil : ValueDict
  | cons (key : String) (val : Value) (rest : ValueDict) : ValueDict
  deriving DecidableEq, Repr
end

/-- A task record: a Python dict from attribute name to value.  Tasks wrapped
in a `todoist.models.Item` are looked through transparently by the engine
(`getattr(task, data_attr, task.data)`), so the embedding works directly on
the underlying mappings. -/
abbrev Task := List (String × Value)

/-- Python `d.get(k)` on a task dict: first binding wins (dict keys are
unique in Python; the association list models that). -/
def dictGet (t : Task) (k : String) : Option Value :=
  match t with
  | [] => none
  | (k', v) :: rest => if k' == k then some v else dictGet rest k

/-- Python `d[k] = v` on a task dict: overwrite in place, else append. -/
def dictSet (t : Task) (k : String) (v : Value) : Task :=
  match t with
  | [] => [(k, v)]
  | (k', w) :: rest => if k' == k then (k', v) :: rest else (k', w) :: dictSet rest k v

/-- Lookup in a nested dict value (Python `due_dict.get(key)`). -/
def ValueDict.get? : ValueDict → String → Option Value
  | .nil, _ => none
  | .cons k v rest, key => if k == key then some v else rest.get? key

/-- Number of entries of a nested dict. -/
def ValueDict.length : ValueDict → Nat
  | .nil => 0
  | .cons _ _ rest => 1 + rest.length

/-- Is this value Python `None`? -/
def Value.isVNone : Value → Bool
  | .vNone => true
  | _ => false

/-- Python `type(v).__name__` for the modelled value domain. -/
def typeName : Value → String
  | .vNone => "NoneType"
  | .vInt _ => "int"
  | .vStr _ => "str"
  | .vDate _ => "datetime"
  | .vDict _ => "dict"

/-- Python truthiness `bool(v)` for the modelled value domain. -/
def truthy : Value → Bool
  | .vNone => false
  | .vInt n => n != 0
  | .vStr s => s != ""
  | .vDate _ => true
  | .vDict d => d.length != 0

/-- Python `s.lower()`, implemented character-wise so that closed runs
evaluate inside the kernel. -/
def lowerStr (s : String) : String := ⟨s.data.map Char.toLower⟩

/-- The numeric value of a non-empty all-digit character list. -/
def digitsVal : List Char → Option Nat
  | [] => none
  | l =>
    l.foldl
      (fun acc c =>
        match acc with
        | none => none
        | some n => if c.isDigit then some (n * 10 + (c.toNat - 48)) else none)
      (some 0)

/-- Decimal integer parse for Python `int(str)`: an optional leading minus
then digits.  (CPython also tolerates surrounding whitespace, a leading
plus and digit-group underscores; the engine only ever parses plain
command-line literals.) -/
def strToInt? (s : String) : Option Int :=
  match s.data with
  | '-' :: rest => (digitsVal rest).map (fun n => -(n : Int))
  | l => (digitsVal l).map (fun n => (n : Int))

/-- Is `cs` a prefix of `l` (character-wise)? -/
def charsPrefixOf : List Char → List Char → Bool
  | [], _ => true
  | _ :: _, [] => false
  | c :: cs, d :: ds => c == d && charsPrefixOf cs ds

/-- Does `hay` contain `needle` as a contiguous substring (Python `needle in hay`)? -/
def charsContains (hay needle : List Char) : Bool :=
  charsPrefixOf needle hay ||
    match hay with
    | [] => false
    | _ :: t => charsContains t needle

/-- Python substring test `needle in hay` on strings. -/
def strContains (hay needle : String) : Bool :=
  charsContains hay.toList needle.toList

mutual
/-- Python `==` on the modelled value domain: same-type structural equality,
`False` across types (and against `None`); dicts compare by key set and
per-key value equality, insensitive to entry order. -/
def py_eq : Value → Value → Bool
  | .vNone, .vNone => true
  | .vInt a, .vInt b => a == b
  | .vStr a, .vStr b => a == b
  | .vDate a, .vDate b => a == b
  | .vDict a, .vDict b => a.length == b.length && dictEntriesIn a b
  | _, _ => false
termination_by structural a => a

/-- Every entry of the first dict is matched by an equal entry of the second. -/
def dictEntriesIn : ValueDict → ValueDict → Bool
  | .nil, _ => true
  | .cons k v rest, e =>
    (match e.get? k with
     | some w => py_eq v w
     | none => false) && dictEntriesIn rest e
termination_by structural d => d
end

/-- Fuel-driven worker for `globMatch`; every step shortens the pattern or
the string, so fuel `pat.length + s.length + 1` is never exhausted. -/
def globMatchF : Nat → List Char → List Char → Bool
  | 0, _, _ => false
  | f + 1, pat, s =>
    match pat, s with
    | [], rest => rest.isEmpty
    | '*' :: p, rest =>
      globMatchF f p rest ||
        (match rest with
         | [] => false
         | _ :: rest' => globMatchF f ('*' :: p) rest')
    | '?' :: p, _ :: rest' => globMatchF f p rest'
    | _ :: _, [] => false
    | c :: p, d :: rest' => c == d && globMatchF f p rest'

/-- Glob matching with `*` and `?` wildcards, as used by `fnmatch` for the
`glob`/`iglob` operators (modelled from the spec, section 4.1: the
`binary_operators` module itself is not part of the provided sources). -/
def globMatch (pat s : List Char) : Bool :=
  globMatchF (pat.length + s.length + 1) pat s

mutual
/-- Python `str(v)` for the modelled value domain (a canonical stand-in for
the CPython text rendering of datetimes and dicts, which the engine never
compares back). -/
def pyStrOf : Value → String
  | .vNone => "None"
  | .vInt n => toString n
  | .vStr s => s
  | .vDate t => "datetime-" ++ toString t
  | .vDict d => "\x7b" ++ dictRepr d ++ "\x7d"
termination_by structural v => v

/-- Entries of a dict rendered for `pyStrOf`. -/
def dictRepr : ValueDict → String
  | .nil => ""
  | .cons k v .nil => k ++ ": " ++ pyStrOf v
  | .cons k v rest => k ++ ": " ++ pyStrOf v ++ ", " ++ dictRepr rest
termination_by structural d => d
end

/-- Python `int(v)`: identity on ints, decimal parse on strings (failing with
`ValueError` on a non-numeric literal), `TypeError` on anything else. -/
def pyInt : Value → Except Err Value
  | .vInt n => .ok (.vInt n)
  | .vStr s =>
    match strToInt? s with
    | some n => .ok (.vInt n)
    | none => .error (.valueError "invalid literal for int")
  | _ => .error (.typeError "int() argument")

/-- The coercion `type(task_value)(value)` of `get_value`: construct a value
of the task value's type from the comparison value.  Only the int and str
constructors succeed on the modelled domain; `datetime(...)` and `dict(...)`
applied to a non-dict value raise. -/
def coerceTo (target v : Value) : Except Err Value :=
  match target with
  | .vInt _ => pyInt v
  | .vStr _ => .ok (.vStr (pyStrOf v))
  | .vDate _ => .error (.typeError "datetime constructor arguments")
  | .vDict _ => .error (.typeError "dict constructor argument")
  | .vNone => .error (.typeError "NoneType takes no arguments")

/-- A binary comparison operator as used by `filter_tasks`: may raise, e.g.
`TypeError` when ordering values of different types. -/
abbrev OpFn := Value → Value → Except Err Bool

/-- Python `<`-style three-way comparison: defined within one of the types
int, str (lexicographic), datetime; raises `TypeError` otherwise. -/
def pyCompare : Value → Value → Except Err Ordering
  | .vInt a, .vInt b => .ok (compare a b)
  | .vStr a, .vStr b => .ok (compare a b)
  | .vDate a, .vDate b => .ok (compare a b)
  | _, _ => .error (.typeError "comparison not supported between instances")

/-- Operator `eq`. -/
def op_eq : OpFn := fun a b => .ok (py_eq a b)

/-- Operator `ne`. -/
def op_ne : OpFn := fun a b => .ok (!py_eq a b)

/-- Operator `lt`. -/
def op_lt : OpFn := fun a b => (pyCompare a b).map (· == Ordering.lt)

/-- Operator `le`. -/
def op_le : OpFn := fun a b => (pyCompare a b).map (· != Ordering.gt)

/-- Operator `gt`. -/
def op_gt : OpFn := fun a b => (pyCompare a b).map (· == Ordering.gt)

/-- Operator `ge`. -/
def op_ge : OpFn := fun a b => (pyCompare a b).map (· != Ordering.lt)

/-- Operator `contains` (`b in a`): substring test on strings, key test on
dicts (a non-string is simply not a key), `TypeError` on other containers. -/
def op_contains : OpFn := fun a b =>
  match a, b with
  | .vStr s, .vStr t => .ok (strContains s t)
  | .vDict d, .vStr k => .ok ((d.get? k).isSome)
  | .vDict _, _ => .ok false
  | _, _ => .error (.typeError "argument is not iterable")

/-- Operator `startswith` (`a.startswith(b)`). -/
def op_startswith : OpFn := fun a b =>
  match a, b with
  | .vStr s, .vStr t => .ok (charsPrefixOf t.toList s.toList)
  | .vStr _, _ => .error (.typeError "startswith first arg must be str")
  | _, _ => .error (.attributeError "startswith")

/-- Operator `endswith` (`a.endswith(b)`). -/
def op_endswith : OpFn := fun a b =>
  match a, b with
  | .vStr s, .vStr t => .ok (charsPrefixOf t.toList.reverse s.toList.reverse)
  | .vStr _, _ => .error (.typeError "endswith first arg must be str")
  | _, _ => .error (.attributeError "endswith")

/-- Operator `glob` (`fnmatch(a, b)`). -/
def op_glob : OpFn := fun a b =>
  match a, b with
  | .vStr s, .vStr t => .ok (globMatch t.toList s.toList)
  | _, _ => .error (.typeError "fnmatch arguments must be str")

/-- Operator `iglob`: case-insensitive glob. -/
def op_iglob : OpFn := fun a b =>
  match a, b with
  | .vStr s, .vStr t => .ok (globMatch (lowerStr t).toList (lowerStr s).toList)
  | _, _ => .error (.typeError "fnmatch arguments must be str")

/-- Operator `ieq` (`a.lower() == b.lower()`). -/
def op_ieq : OpFn := fun a b =>
  match a, b with
  | .vStr s, .vStr t => .ok (lowerStr s == lowerStr t)
  | _, _ => .error (.attributeError "lower")

/-- Modelled from the spec: the operator registry of the `binary_operators`
module (spec section 4.1; the module itself is outside the provided
sources).  `filter_tasks` resolves operators with
`getattr(binary_operators, op_name)`, raising `AttributeError` for an
unknown name, which `none` models here. -/
def binary_operators (name : String) : Option OpFn :=
  if name == "eq" then some op_eq
  else if name == "ne" then some op_ne
  else if name == "lt" then some op_lt
  else if name == "le" then some op_le
  else if name == "gt" then some op_gt
  else if name == "ge" then some op_ge
  else if name == "contains" then some op_contains
  else if name == "startswith" then some op_startswith
  else if name == "endswith" then some op_endswith
  else if name == "glob" then some op_glob
  else if name == "iglob" then some op_iglob
  else if name == "ieq" then some op_ieq
  else none

/-- The pure part of `get_value` (action_commands.py lines 251-261): extract
the task's value for `taskkey`, using the v7.1 `due` sub-mapping when
`taskkey` is a legacy due-date key and `due` is present (the `due_` prefix is
stripped for the sub-lookup), else `task.get(taskkey, default_)`.  A truthy
non-dict `due` entry makes `due_dict.get(...)` raise `AttributeError`, a
falsy one is replaced by the empty dict (`task.get('due') or \x7b\x7d`). -/
def lookupTaskValue (taskkey : String) (default_ : Value) (task : Task) : Except Err Value :=
  if (dictGet task "due").isSome && (taskkey == "due_date" || taskkey == "due_date_utc") then
    let dueRaw := (dictGet task "due").getD .vNone
    if truthy dueRaw then
      match dueRaw with
      | .vDict d => .ok ((d.get? (if taskkey == "due_date" then "date" else "date_utc")).getD .vNone)
      | _ => .error (.attributeError "object has no attribute get")
    else .ok .vNone
  else .ok ((dictGet task taskkey).getD default_)

/-- `get_value` (action_commands.py lines 251-266): look the attribute up and,
when the task value is present (not None) and of a different type than the
shared comparison value, coerce the comparison value — never the task value —
to the task value's type.  The coercion mutates the comparison value for the
rest of the filter evaluation (`nonlocal value`), modelled by returning the
new state alongside the task value. -/
def get_value_step (taskkey : String) (default_ : Value) (task : Task) (value : Value) :
    Except Err (Value × Value) :=
  match lookupTaskValue taskkey default_ task with
  | .error e => .error e
  | .ok tv =>
    if !tv.isVNone && typeName tv != typeName value then
      match coerceTo tv value with
      | .error e => .error e
      | .ok w => .ok (tv, w)
    else .ok (tv, value)

/-- `filter_eval` for `missing="raise"` (lines 268-277): a missing or null
value raises; the raising f-string first indexes `task["id"]` and
`task["content"]`, so a task lacking those keys raises `KeyError` instead. -/
def step_raise (opf : OpFn) (taskkey : String) (negate : Bool) (task : Task) (value : Value) :
    Except Err (Bool × Value) :=
  match get_value_step taskkey .vNone task value with
  | .error e => .error e
  | .ok (tv, v') =>
    if tv.isVNone then
      match dictGet task "id" with
      | none => .error (.keyError "id")
      | some _ =>
        match dictGet task "content" with
        | none => .error (.keyError "content")
        | some _ => .error (.valueError "Key not present (or None) in task")
    else
      match opf tv v' with
      | .error e => .error e
      | .ok b => .ok (b != negate, v')

/-- `filter_eval` for `missing="include"` (lines 278-286): a missing or null
value passes without evaluating the operator (Python `or` short-circuit). -/
def step_include (opf : OpFn) (taskkey : String) (negate : Bool) (task : Task) (value : Value) :
    Except Err (Bool × Value) :=
  match get_value_step taskkey .vNone task value with
  | .error e => .error e
  | .ok (tv, v') =>
    if tv.isVNone then .ok (true, v')
    else
      match opf tv v' with
      | .error e => .error e
      | .ok b => .ok (b != negate, v')

/-- `filter_eval` for `missing="exclude"` (lines 287-295): a missing or null
value fails without evaluating the operator (Python `and` short-circuit). -/
def step_exclude (opf : OpFn) (taskkey : String) (negate : Bool) (task : Task) (value : Value) :
    Except Err (Bool × Value) :=
  match get_value_step taskkey .vNone task value with
  | .error e => .error e
  | .ok (tv, v') =>
    if tv.isVNone then .ok (false, v')
    else
      match opf tv v' with
      | .error e => .error e
      | .ok b => .ok (b != negate, v')

/-- `filter_eval` for `missing="default"` (lines 296-299): the default is
passed to `get_value` as the `dict.get` fallback, so it replaces the task
value only when the key is absent — a present-but-null value stays `None`
and is handed to the operator as-is. -/
def step_default (opf : OpFn) (taskkey : String) (defaultv : Value) (negate : Bool)
    (task : Task) (value : Value) : Except Err (Bool × Value) :=
  match get_value_step taskkey defaultv task value with
  | .error e => .error e
  | .ok (tv, v') =>
    match opf tv v' with
    | .error e => .error e
    | .ok b => .ok (b != negate, v')

/-- The list comprehension `[task for task in tasks if filter_eval(task)]`
with the shared comparison value threaded as state; the first raising task
aborts the whole filter. -/
def filter_loop (step : Task → Value → Except Err (Bool × Value)) :
    List Task → Value → Except Err (List Task × Value)
  | [], v => .ok ([], v)
  | t :: ts, v =>
    match step t v with
    | .error e => .error e
    | .ok (b, v₁) =>
      match filter_loop step ts v₁ with
      | .error e => .error e
      | .ok (r, v₂) => .ok (if b then t :: r else r, v₂)

/-- The `negate` argument of `filter_tasks` as received from Python: a bool
from internal callers, or a raw command-line string. -/
inductive NegArg where
  | b (b : Bool) : NegArg
  | s (s : String) : NegArg
  deriving DecidableEq, Repr

/-- Placeholder normalization and `bool(...)` for `negate` (lines 207-210):
a string that lowercases to `false`, `_`, `__none__` or `0` becomes `False`;
any other string is truthy iff non-empty. -/
def normNegArg : NegArg → Bool
  | .b b => b
  | .s s =>
    if lowerStr s == "false" || lowerStr s == "_" || lowerStr s == "__none__" || lowerStr s == "0"
    then false
    else s != ""

/-- The value-transform resolver (lines 220-241 and spec section 4.2) for the
modelled domain: the builtin type-constructor names `int` and `str` resolve
to the corresponding constructors; the empty token is falsy in Python and
disables transformation.  Any other token falls into the `locals`/`globals`/
`eval` escape hatch, which executes arbitrary host code and is outside the
embedded domain, modelled as a failure. -/
def resolveTransform : Option String → Except Err (Option (Value → Except Err Value))
  | none => .ok none
  | some s =>
    if s == "" then .ok none
    else if s == "int" then .ok (some pyInt)
    else if s == "str" then .ok (some (fun v => .ok (.vStr (pyStrOf v))))
    else .error (.valueError "transform token outside the modelled builtins")

/-- The pitfall warning of lines 195-198: with operator `le` and a date-like
task key, the code slices `value[-2:]`, which raises `TypeError` when the
comparison value is not subscriptable (e.g. a datetime or int). -/
def precheck (taskkey op_name : String) (value : Value) : Except Err Unit :=
  if op_name == "le" && strContains taskkey "date" then
    match value with
    | .vStr _ => .ok ()
    | _ => .error (.typeError "object is not subscriptable")
  else .ok ()

/-- The pre-loop phase of `filter_tasks` (lines 194-248): pitfall warning,
placeholder normalization of `default` and `value_transform`, operator
resolution, transform resolution, transformation of the comparison value
and — only when the default is truthy and the policy is `default` — of the
default value.  Returns the operator, transformed comparison value and
(possibly transformed) default. -/
def filter_prepare (taskkey op_name : String) (value : Value) (missing : String)
    (defaultv : Value) (vt : Option String) : Except Err (OpFn × Value × Value) :=
  match precheck taskkey op_name value with
  | .error e => .error e
  | .ok _ =>
    let defaultv := if defaultv = Value.vStr "_" ∨ defaultv = Value.vStr "__None__"
                    then Value.vNone else defaultv
    let vt : Option String :=
      match vt with
      | some s => if s = "_" ∨ s = "__None__" then none else some s
      | none => none
    match binary_operators op_name with
    | none => .error (.attributeError op_name)
    | some opf =>
      match resolveTransform vt with
      | .error e => .error e
      | .ok none => .ok (opf, value, defaultv)
      | .ok (some f) =>
        match f value with
        | .error e => .error e
        | .ok v' =>
          if truthy defaultv && missing == "default" then
            match f defaultv with
            | .error e => .error e
            | .ok d' => .ok (opf, v', d')
          else .ok (opf, v', defaultv)

/-- Selection of the per-task `filter_eval` closure by missing-value policy
(lines 268-303); an unrecognized policy is reported before any task is
evaluated. -/
def mkStep (opf : OpFn) (taskkey : String) (missing : String) (defaultv : Value)
    (negate : Bool) : Option (Task → Value → Except Err (Bool × Value)) :=
  if missing == "raise" then some (step_raise opf taskkey negate)
  else if missing == "include" then some (step_include opf taskkey negate)
  else if missing == "exclude" then some (step_exclude opf taskkey negate)
  else if missing == "default" then some (step_default opf taskkey defaultv negate)
  else none

/-- `filter_tasks` (action_commands.py lines 147-307): the generic
comparison-based task filter.  Verbose printing is modelled away (it never
affects the result). -/
def filter_tasks (tasks : List Task) (taskkey op_name : String) (value : Value)
    (missing : String) (defaultv : Value) (value_transform : Option String)
    (negate : NegArg) : Except Err (List Task) :=
  match filter_prepare taskkey op_name value missing defaultv value_transform with
  | .error e => .error e
  | .ok (opf, v', d') =>
    match mkStep opf taskkey missing d' (normNegArg negate) with
    | none => .error (.valueError "Argument missing value not recognized")
    | some step =>
      match filter_loop step tasks v' with
      | .error e => .error e
      | .ok (r, _) => .ok r

/-- `generic_args_filter_adaptor` (lines 310-343): consume an optional
leading `not`, then decide whether the remaining tokens are a bare value
(one token: use the per-attribute default operator) or operator-plus-value.
With more than two remaining tokens the source forwards the rest as extra
positional arguments to `filter_tasks(tasks, taskkey=..., ...)`, which makes
the call raise `TypeError` (the positionals collide with the keyword
`taskkey`).  An empty token list fails the leading `assert`; an empty list
after consuming `not` fails the tuple unpacking. -/
def generic_args_filter_adaptor (tasks : List Task) (taskkey : String)
    (args : List String) (default_op : String) : Except Err (List Task) :=
  match args with
  | [] => .error (.valueError "assert len of args is at least 1")
  | a0 :: rest =>
    let negate := a0 == "not"
    let args := if a0 == "not" then rest else a0 :: rest
    match args with
    | [] => .error (.valueError "not enough values to unpack")
    | [v] => filter_tasks tasks taskkey default_op (.vStr v) "exclude" .vNone none (.b negate)
    | o :: v :: more =>
      if more.isEmpty then
        filter_tasks tasks taskkey o (.vStr v) "exclude" .vNone none (.b negate)
      else .error (.typeError "got multiple values for argument taskkey")

/-- `content_filter` (lines 467-469): the `-content`/`-name` action, an
adaptor pre-bound to the `content` attribute with default operator `iglob`. -/
def content_filter (tasks : List Task) (args : List String) : Except Err (List Task) :=
  generic_args_filter_adaptor tasks "content" args "iglob"

/-- External collaborators of `special_is_filter` (spec section 6): the
`parsedatetime` calendar (returning an abstract instant plus the hasDate and
hasTime context flags), the `actionista.date_utils` day-snapping and
formatting helpers, the local-timezone conversion, and the recurring-task
detector.  Instants are abstract integers; the engine only compares them. -/
structure ExtOps where
  parseDT : String → Int × Bool × Bool
  start_of_day : Int → Int
  end_of_day : Int → Int
  local_time_to_utc : Int → String → String
  toLocalTz : Int → Int
  get_recurring_tasks : List Task → Bool → List Task

/-- `ISO_8601_FMT` from `actionista.date_utils` (module outside the provided
sources); used only as an opaque format token. -/
def ISO_8601_FMT : String := "%Y-%m-%dT%H:%M:%S"

/-- `DATE_DAY_FMT` from `actionista.date_utils`; an opaque format token. -/
def DATE_DAY_FMT : String := "%Y-%m-%d"

/-- `special_is_filter` (lines 346-452): the `-is` action.  Note on the
`due or overdue` rewrite (line 365): the source compares the two-element
slice `args[0:2]` against three-element lists, which is never equal (and
`args` is in fact a tuple there, never equal to a list at all), so the
rewrite branch is dead code; it is embedded as written. -/
def special_is_filter (ops : ExtOps) (tasks : List Task) (args0 : List String) :
    Except Err (List Task) :=
  match args0 with
  | [] => .error (.indexError "tuple index out of range")
  | a0 :: rest =>
    let negate := a0 == "not"
    let args := if a0 == "not" then rest else a0 :: rest
    match args with
    | [] => .error (.indexError "tuple index out of range")
    | b0 :: brest =>
      if b0 == "due" || b0 == "overdue" then
        let args := if args.take 2 == ["due", "or", "overdue"]
                       || args.take 2 == ["overdue", "or", "due"]
                    then ["due", "before", "tomorrow"] ++ args.drop 2 else args
        match args with
        | [] => .error (.indexError "tuple index out of range")
        | c0 :: crest =>
          let sel : Except Err (String × Option (Int → Int) × String × String) :=
            if c0 == "overdue" then .ok ("lt", some ops.start_of_day, "today", ISO_8601_FMT)
            else
              match crest with
              | [] => .ok ("le", some ops.end_of_day, "today", ISO_8601_FMT)
              | c1 :: crest2 =>
                if c1 == "before" || c1 == "on" || c1 == "after" then
                  match crest2 with
                  | [] => .error (.indexError "tuple index out of range")
                  | c2 :: _ =>
                    if c1 == "before" then .ok ("lt", some ops.start_of_day, c2, ISO_8601_FMT)
                    else if c1 == "on" then .ok ("startswith", none, c2, DATE_DAY_FMT)
                    else .ok ("gt", some ops.end_of_day, c2, ISO_8601_FMT)
                else .ok ("startswith", none, c1, DATE_DAY_FMT)
          match sel with
          | .error e => .error e
          | .ok (op_name, convert, whenTok, timefmt) =>
            let pd := ops.parseDT whenTok
            if !pd.2.1 then .error (.valueError "Could not parse due date")
            else
              let dt := pd.1
              let dt :=
                match convert with
                | some f => if !pd.2.2 then f dt else dt
                | none => dt
              let _utc_str := ops.local_time_to_utc dt timefmt
              match filter_tasks tasks "checked" "eq" (.vInt 0) "include" .vNone none
                      (.b false) with
              | .error e => .error e
              | .ok pre =>
                let dtl := ops.toLocalTz dt
                filter_tasks pre "due_date_dt" op_name (.vDate dtl) "exclude" .vNone none
                  (.b negate)
      else if b0 == "checked" || b0 == "unchecked" || b0 == "complete" || b0 == "incomplete"
              || b0 == "completed" || b0 == "done" then
        let checked_val : Int := if b0.data.take 2 == "in".data || b0.data.take 2 == "un".data then 0 else 1
        filter_tasks tasks "checked" "eq" (.vInt checked_val) "exclude" .vNone none (.b negate)
      else if b0 == "in" then
        match brest with
        | [] => .error (.indexError "tuple index out of range")
        | v :: _ =>
          filter_tasks tasks "project_name" "eq" (.vStr v) "exclude" .vNone none (.b negate)
      else if b0 == "recurring" then .ok (ops.get_recurring_tasks tasks negate)
      else .error (.valueError "is parameter not recognized")

/-- `is_not_filter` (lines 455-458): the `-not` action, alias for `-is not`. -/
def is_not_filter (ops : ExtOps) (tasks : List Task) (args : List String) :
    Except Err (List Task) :=
  special_is_filter ops tasks ("not" :: args)

/-- `due_date_filter` (lines 461-464): the `-due` action, alias for `-is due`. -/
def due_date_filter (ops : ExtOps) (tasks : List Task) (whenToks : List String) :
    Except Err (List Task) :=
  special_is_filter ops tasks ("due" :: whenToks)

/-- Does the token list reach the `due`/`overdue` branch of
`special_is_filter` (after the optional leading `not`)? -/
def dueTokens (args : List String) : Bool :=
  match args with
  | [] => false
  | a0 :: rest =>
    let args := if a0 == "not" then rest else a0 :: rest
    match args with
    | [] => false
    | b0 :: _ => b0 == "due" || b0 == "overdue"

/-- Is the task's attribute present and non-null, as extracted by
`get_value` with no fallback?  (The engine treats null exactly like
missing.) -/
def presentB (taskkey : String) (t : Task) : Bool :=
  match lookupTaskValue taskkey .vNone t with
  | .ok tv => !tv.isVNone
  | .error _ => false

/-- A task record with the mutation log of its `todoist.models.Item`: the
`update(**kwargs)` calls queued for the server, newest last. -/
structure Item where
  data : Task
  updates : List (List (String × Value))
  deriving DecidableEq, Repr

/-- Append one `task.update(**kwargs)` call to the item's queue. -/
def pushUpdate (t : Item) (c : List (String × Value)) : Item :=
  { t with updates := t.updates ++ [c] }

/-- External collaborators of `reschedule_tasks`: `dateparser.parse`
(`none` models a parse failure), `local_time_to_utc`, the end-of-day
rewrite `dt.replace(hour=23, minute=59, second=59)`, the recurring-task
detector (used only for a warning), and `inject_tasks_date_fields`. -/
structure ReschedOps where
  dateparser_parse : String → Option Int
  local_time_to_utc : Int → String → String
  set_eod : Int → Int
  get_recurring_tasks : List Item → List Item
  inject_tasks_date_fields : List Item → List Item

/-- The single update call issued per task in date-string mode (lines
639-645): tasks with a v8 `due` sub-mapping receive
`update(due=\x7b"string": new_date\x7d)`, others `update(date_string=new_date)`. -/
def dateStringUpdateCall (t : Item) (new_date : String) : List (String × Value) :=
  if (dictGet t.data "due").isSome then
    [("due", .vDict (.cons "string" (.vStr new_date) .nil))]
  else [("date_string", .vStr new_date)]

/-- The due-string carried by an update call, whichever of the two field
shapes it uses. -/
def dueStringOfCall (c : List (String × Value)) : Option String :=
  match dictGet c "due" with
  | some (.vDict d) =>
    match d.get? "string" with
    | some (.vStr s) => some s
    | _ => none
  | some _ => none
  | none =>
    match dictGet c "date_string" with
    | some (.vStr s) => some s
    | _ => none

/-- The per-task loop of the non-date-string branch of `reschedule_tasks`
(lines 671-676): read `task["date_string"]` (a missing key raises
`KeyError`), queue `update(due_date_utc=..., date_string=...)`, and under
`update_local` also set the local `due_date_utc` field. -/
def reschedUpdLoop (u : String) (update_local : Bool) : List Item → Except Err (List Item)
  | [] => .ok []
  | t :: ts =>
    match dictGet t.data "date_string" with
    | none => .error (.keyError "date_string")
    | some ds =>
      let t := pushUpdate t [("due_date_utc", .vStr u), ("date_string", ds)]
      let t := if update_local then { t with data := dictSet t.data "due_date_utc" (.vStr u) }
               else t
      match reschedUpdLoop u update_local ts with
      | .error e => .error e
      | .ok rs => .ok (t :: rs)

/-- `reschedule_tasks` (lines 568-679).  In the default timezone mode — the
sentinel string `date_string` — the new date is sent verbatim as the
service's date-string field, one update call per task, with no local date
parsing.  Otherwise the date is parsed locally, relative day phrases are
snapped to end of day, and an explicit UTC timestamp is sent together with
the task's original date string.  (The `new_date.replace(tzinfo=...)` call
at line 667 discards its result in the source and changes nothing.)
`check_recurring` only prints a warning, so the detector's result is
discarded here. -/
def reschedule_tasks (ops : ReschedOps) (tasks : List Item) (new_date : String)
    (timezone : String) (update_local check_recurring : Bool) : Except Err (List Item) :=
  let _warn := if check_recurring then ops.get_recurring_tasks tasks else []
  if timezone == "date_string" then
    .ok (tasks.map (fun t => pushUpdate t (dateStringUpdateCall t new_date)))
  else
    match ops.dateparser_parse new_date with
    | none => .error (.valueError "Could not parse date")
    | some nd =>
      let nd := if new_date == "today" || new_date == "tomorrow"
                   || strContains new_date "days"
                then ops.set_eod nd else nd
      let new_date_utc := ops.local_time_to_utc nd ISO_8601_FMT
      match reschedUpdLoop new_date_utc update_local tasks with
      | .error e => .error e
      | .ok ts => .ok (if update_local then ops.inject_tasks_date_fields ts else ts)

/-- Concrete external collaborators for closed evaluations: `today` parses
to instant 500 and `tomorrow` to 1000, both date-only; any other token fails
to parse.  Start of day subtracts 50, end of day adds 50. -/
def sampleExtOps : ExtOps where
  parseDT := fun s =>
    if s == "tomorrow" then (1000, true, false)
    else if s == "today" then (500, true, false)
    else (0, false, false)
  start_of_day := fun d => d - 50
  end_of_day := fun d => d + 50
  local_time_to_utc := fun _ _ => ""
  toLocalTz := fun d => d
  get_recurring_tasks := fun ts _ => ts

/-! ## Helper lemmas about the evaluation loop -/

/-- Whatever the step function does, the kept tasks form a sublist of the
input, in input order. -/
theorem filter_loop_sublist (step : Task → Value → Except Err (Bool × Value)) :
    ∀ (ts : List Task) (v : Value) (r : List Task) (v' : Value),
      filter_loop step ts v = .ok (r, v') → r.Sublist ts := by
  intro ts
  induction ts with
  | nil =>
    intro v r v' h
    simp only [filter_loop, Except.ok.injEq, Prod.mk.injEq] at h
    rw [← h.1]
  | cons t ts ih =>
    intro v r v' h
    simp only [filter_loop] at h
    split at h
    · exact absurd h (by simp)
    · rename_i b v₁ hstep
      split at h
      · exact absurd h (by simp)
      · rename_i r' v₂ hrec
        simp only [Except.ok.injEq, Prod.mk.injEq] at h
        rw [← h.1]
        cases b with
        | true => simpa using (ih v₁ r' v₂ hrec).cons₂ t
        | false => simpa using (ih v₁ r' v₂ hrec).cons t

/-- Every kept task was accepted by the step function at some state
reachable from the initial one; reachable states satisfy any invariant the
step function preserves. -/
theorem filter_loop_mem (step : Task → Value → Except Err (Bool × Value))
    (P : Value → Prop)
    (hP : ∀ u w b w', P w → step u w = .ok (b, w') → P w') :
    ∀ (ts : List Task) (v : Value) (r : List Task) (v' : Value), P v →
      filter_loop step ts v = .ok (r, v') →
      ∀ t ∈ r, ∃ w w', P w ∧ step t w = .ok (true, w') := by
  intro ts
  induction ts with
  | nil =>
    intro v r v' hv h
    simp only [filter_loop, Except.ok.injEq, Prod.mk.injEq] at h
    rw [← h.1]
    intro t ht
    exact absurd ht (by simp)
  | cons t ts ih =>
    intro v r v' hv h
    simp only [filter_loop] at h
    split at h
    · exact absurd h (by simp)
    · rename_i b v₁ hstep
      split at h
      · exact absurd h (by simp)
      · rename_i r' v₂ hrec
        simp only [Except.ok.injEq, Prod.mk.injEq] at h
        rw [← h.1]
        have hv₁ : P v₁ := hP t v b v₁ hv hstep
        intro u hu
        cases b with
        | true =>
          rcases List.mem_cons.mp (by simpa using hu) with rfl | hu'
          · exact ⟨v, v₁, hv, hstep⟩
          · exact ih v₁ r' v₂ hv₁ hrec u hu'
        | false => exact ih v₁ r' v₂ hv₁ hrec u (by simpa using hu)

/-- A task that every state accepts is kept whenever the loop succeeds. -/
theorem filter_loop_mem_of_true (step : Task → Value → Except Err (Bool × Value)) (t : Task)
    (ht : ∀ w, ∃ w', step t w = .ok (true, w')) :
    ∀ (ts : List Task) (v : Value) (r : List Task) (v' : Value),
      t ∈ ts → filter_loop step ts v = .ok (r, v') → t ∈ r := by
  intro ts
  induction ts with
  | nil => intro v r v' hmem; exact absurd hmem (by simp)
  | cons u ts ih =>
    intro v r v' hmem h
    simp only [filter_loop] at h
    split at h
    · exact absurd h (by simp)
    · rename_i b v₁ hstep
      split at h
      · exact absurd h (by simp)
      · rename_i r' v₂ hrec
        simp only [Except.ok.injEq, Prod.mk.injEq] at h
        rw [← h.1]
        rcases List.mem_cons.mp hmem with rfl | hmem'
        · obtain ⟨w', hw'⟩ := ht v
          rw [hstep] at hw'
          simp only [Except.ok.injEq, Prod.mk.injEq] at hw'
          rw [← hw'.1]
          simp
        · have := ih v₁ r' v₂ hmem' hrec
          cases b <;> simp [this]

/-- Flip the kept-bit of a step result when `flip` holds. -/
def negMapExcept (flip : Bool) : Except Err (Bool × Value) → Except Err (Bool × Value)
  | .error e => .error e
  | .ok (b, w) => .ok (if flip then !b else b, w)

/-- Two step functions that agree up to flipping the kept-bit exactly on the
tasks satisfying `q` — and that always reject tasks not satisfying `q` —
produce complementary kept lists: together (with multiplicity) they are
exactly the `q`-filtered input, and they finish in the same state. -/
theorem filter_loop_pair (step₀ step₁ : Task → Value → Except Err (Bool × Value))
    (q : Task → Bool)
    (hsync : ∀ t w, step₁ t w = negMapExcept (q t) (step₀ t w))
    (hq : ∀ t w b w', q t = false → step₀ t w = .ok (b, w') → b = false) :
    ∀ (ts : List Task) (v : Value) (r₀ : List Task) (v₀ : Value),
      filter_loop step₀ ts v = .ok (r₀, v₀) →
      ∃ r₁, filter_loop step₁ ts v = .ok (r₁, v₀) ∧
        (r₀ ++ r₁).Perm (ts.filter q) := by
  intro ts
  induction ts with
  | nil =>
    intro v r₀ v₀ h
    simp only [filter_loop, Except.ok.injEq, Prod.mk.injEq] at h
    exact ⟨[], by simp [filter_loop, h.2], by simp [← h.1]⟩
  | cons t ts ih =>
    intro v r₀ v₀ h
    simp only [filter_loop] at h
    split at h
    · exact absurd h (by simp)
    · rename_i b v₁ hstep
      split at h
      · exact absurd h (by simp)
      · rename_i r₀' v₂ hrec
        simp only [Except.ok.injEq, Prod.mk.injEq] at h
        obtain ⟨hr₀, hv₀⟩ := h
        subst hv₀
        obtain ⟨r₁', hloop₁, hperm⟩ := ih v₁ r₀' v₂ hrec
        have hstep₁ : step₁ t v = .ok (if q t then !b else b, v₁) := by
          rw [hsync t v, hstep]; rfl
        refine ⟨if (if q t then !b else b) then t :: r₁' else r₁', ?_, ?_⟩
        · simp only [filter_loop, hstep₁, hloop₁]
        · rw [← hr₀]
          cases hqt : q t with
          | false =>
            have hb : b = false := hq t v b v₁ hqt hstep
            subst hb
            simpa [hqt] using hperm
          | true =>
            cases b with
            | true =>
              simpa [hqt] using hperm.cons t
            | false =>
              have hmid : (r₀' ++ (t :: r₁')).Perm (t :: List.filter q ts) :=
                (List.perm_middle).trans (hperm.cons t)
              simpa [hqt] using hmid

/-! ## Helper lemmas about `get_value` and the policy steps -/

/-- The task value returned by `get_value` is exactly the looked-up one:
only the comparison value is ever coerced. -/
theorem get_value_step_fst (taskkey : String) (d : Value) (t : Task) (v tv w : Value)
    (h : get_value_step taskkey d t v = .ok (tv, w)) :
    lookupTaskValue taskkey d t = .ok tv := by
  unfold get_value_step at h
  split at h
  · exact absurd h (by simp)
  · rename_i tv' hl
    split at h
    · split at h
      · exact absurd h (by simp)
      · simp only [Except.ok.injEq, Prod.mk.injEq] at h
        rw [hl, h.1]
    · simp only [Except.ok.injEq, Prod.mk.injEq] at h
      rw [hl, h.1]

/-- When the looked-up value is null (or the key absent), `get_value`
returns it unchanged and does not touch the comparison value. -/
theorem get_value_step_of_none (taskkey : String) (d : Value) (t : Task) (v : Value)
    (h : lookupTaskValue taskkey d t = .ok .vNone) :
    get_value_step taskkey d t v = .ok (.vNone, v) := by
  unfold get_value_step
  rw [h]
  simp [Value.isVNone]

/-- When the looked-up value is present and of the comparison value's type,
`get_value` performs no coercion. -/
theorem get_value_step_of_sametype (taskkey : String) (d : Value) (t : Task) (v tv : Value)
    (h : lookupTaskValue taskkey d t = .ok tv)
    (hty : typeName tv = typeName v) :
    get_value_step taskkey d t v = .ok (tv, v) := by
  unfold get_value_step
  rw [h]
  simp [hty]

/-- When the looked-up value is present and of a different type than the
comparison value, `get_value` coerces the comparison value — never the task
value — through the task value's type constructor. -/
theorem get_value_step_coerces (taskkey : String) (d : Value) (t : Task) (v tv : Value)
    (h : lookupTaskValue taskkey d t = .ok tv)
    (hnn : tv.isVNone = false)
    (hty : typeName tv ≠ typeName v) :
    get_value_step taskkey d t v = (coerceTo tv v).map (fun w => (tv, w)) := by
  unfold get_value_step
  rw [h]
  simp only [hnn, Bool.not_false, Bool.true_and, bne_iff_ne, ne_eq, hty, not_false_eq_true,
    if_true]
  cases coerceTo tv v <;> rfl

/-- With policy `exclude`, flipping `negate` flips the kept-bit exactly on
the tasks whose attribute is present; missing tasks are rejected either
way, and the state evolution is identical. -/
theorem step_exclude_sync (opf : OpFn) (taskkey : String) (t : Task) (w : Value) :
    step_exclude opf taskkey true t w
      = negMapExcept (presentB taskkey t) (step_exclude opf taskkey false t w) := by
  unfold step_exclude presentB
  cases hgv : get_value_step taskkey .vNone t w with
  | error e => rfl
  | ok p =>
    obtain ⟨tv, v'⟩ := p
    have hl := get_value_step_fst taskkey .vNone t w tv v' hgv
    rw [hl]
    cases htv : tv.isVNone with
    | true => simp [negMapExcept, htv]
    | false =>
      cases hop : opf tv v' with
      | error e => simp [negMapExcept, htv, hop]
      | ok b => cases b <;> simp [negMapExcept, htv, hop]

/-- With policy `exclude` and `negate = false`, a task whose attribute is
missing or null is always rejected. -/
theorem step_exclude_not_present (opf : OpFn) (taskkey : String) (t : Task) (w w' : Value)
    (b : Bool) (hq : presentB taskkey t = false)
    (h : step_exclude opf taskkey false t w = .ok (b, w')) : b = false := by
  unfold step_exclude at h
  split at h
  · exact absurd h (by simp)
  · rename_i tv v' hgv
    have hl := get_value_step_fst taskkey .vNone t w tv v' hgv
    unfold presentB at hq
    rw [hl] at hq
    simp only [Bool.not_eq_false'] at hq
    split at h
    · simp only [Except.ok.injEq, Prod.mk.injEq] at h
      exact h.1.symm
    · rename_i hfalse
      exact absurd hq hfalse

/-! ## The filter as a whole -/

/-- Whenever `filter_tasks` succeeds, its result is a sublist of the input
(same tasks, same relative order, no duplication, no additions). -/
theorem filter_tasks_sublist_aux (tasks : List Task) (taskkey op_name : String) (value : Value)
    (missing : String) (defaultv : Value) (vt : Option String) (neg : NegArg) (r : List Task)
    (h : filter_tasks tasks taskkey op_name value missing defaultv vt neg = .ok r) :
    r.Sublist tasks := by
  unfold filter_tasks at h
  split at h
  · exact absurd h (by simp)
  · split at h
    · exact absurd h (by simp)
    · rename_i step hstep
      split at h
      · exact absurd h (by simp)
      · rename_i r' vfin hloop
        simp only [Except.ok.injEq] at h
        rw [← h]
        exact filter_loop_sublist step tasks _ r' vfin hloop

/-! ## The completed-task pre-exclusion of the due filters -/

/-- During the `checked eq 0` pre-filter, the shared comparison value is
always the integer 0 or its string coercion. -/
def checkedState (w : Value) : Prop := w = .vInt 0 ∨ w = .vStr "0"

/-- Coercing a `checkedState` comparison value to any task value type that
succeeds lands back in `checkedState`. -/
theorem coerceTo_checked (tv w w2 : Value) (hw : checkedState w)
    (hco : coerceTo tv w = .ok w2) : checkedState w2 := by
  rcases hw with hw | hw
  · subst hw
    cases tv with
    | vNone => simp [coerceTo] at hco
    | vDate x => simp [coerceTo] at hco
    | vDict d => simp [coerceTo] at hco
    | vInt n =>
      simp only [coerceTo] at hco
      rw [show pyInt (Value.vInt 0) = .ok (Value.vInt 0) from rfl] at hco
      exact Or.inl (Except.ok.inj hco).symm
    | vStr s =>
      simp only [coerceTo] at hco
      rw [show Value.vStr (pyStrOf (Value.vInt 0)) = Value.vStr "0" from by decide] at hco
      exact Or.inr (Except.ok.inj hco).symm
  · subst hw
    cases tv with
    | vNone => simp [coerceTo] at hco
    | vDate x => simp [coerceTo] at hco
    | vDict d => simp [coerceTo] at hco
    | vInt n =>
      simp only [coerceTo] at hco
      rw [show pyInt (Value.vStr "0") = .ok (Value.vInt 0) from by decide] at hco
      exact Or.inl (Except.ok.inj hco).symm
    | vStr s =>
      simp only [coerceTo] at hco
      rw [show Value.vStr (pyStrOf (Value.vStr "0")) = Value.vStr "0" from rfl] at hco
      exact Or.inr (Except.ok.inj hco).symm

/-- `get_value` keeps the comparison value inside `checkedState`. -/
theorem gv_checked_state (taskkey : String) (u : Task) (w tv v' : Value)
    (hw : checkedState w)
    (hgv : get_value_step taskkey .vNone u w = .ok (tv, v')) : checkedState v' := by
  unfold get_value_step at hgv
  split at hgv
  · exact absurd hgv (by simp)
  · rename_i tv' hl
    split at hgv
    · split at hgv
      · exact absurd hgv (by simp)
      · rename_i w2 hco
        simp only [Except.ok.injEq, Prod.mk.injEq] at hgv
        rw [← hgv.2]
        exact coerceTo_checked tv' w w2 hw hco
    · simp only [Except.ok.injEq, Prod.mk.injEq] at hgv
      rw [← hgv.2]
      exact hw

/-- A task whose `checked` attribute is the integer 1 is rejected by the
`checked eq 0` inclusion step in every reachable state. -/
theorem checked_one_rejected (t : Task) (w : Value)
    (hw : checkedState w)
    (hl : lookupTaskValue "checked" .vNone t = .ok (.vInt 1)) :
    step_include op_eq "checked" false t w = .ok (false, .vInt 0) := by
  rcases hw with hw | hw <;> subst hw
  · unfold step_include
    rw [get_value_step_of_sametype "checked" .vNone t (.vInt 0) (.vInt 1) hl rfl]
    rfl
  · unfold step_include
    rw [get_value_step_coerces "checked" .vNone t (.vStr "0") (.vInt 1) hl rfl (by decide)]
    rfl

/-- A task whose `checked` attribute is missing or null is accepted by the
`checked eq 0` inclusion step in every state, without touching the state. -/
theorem checked_missing_accepted (t : Task) (w : Value)
    (hl : lookupTaskValue "checked" .vNone t = .ok .vNone) :
    step_include op_eq "checked" false t w = .ok (true, w) := by
  unfold step_include
  rw [get_value_step_of_none "checked" .vNone t w hl]
  rfl

/-- The pre-filter `filter_tasks(tasks, "checked", "eq", 0, missing="include")`
of the due filters, reshaped to its evaluation loop. -/
theorem checked_filter_shape (tasks : List Task) :
    filter_tasks tasks "checked" "eq" (.vInt 0) "include" .vNone none (.b false)
      = (match filter_loop (step_include op_eq "checked" false) tasks (.vInt 0) with
         | .error e => .error e
         | .ok (r, _) => .ok r) := rfl

/-- The pre-filter drops every task whose completion flag equals 1. -/
theorem checked_filter_excludes_completed (tasks pre : List Task)
    (h : filter_tasks tasks "checked" "eq" (.vInt 0) "include" .vNone none (.b false) = .ok pre) :
    ∀ t ∈ pre, lookupTaskValue "checked" .vNone t ≠ .ok (.vInt 1) := by
  rw [checked_filter_shape] at h
  intro t ht hl
  cases hloop : filter_loop (step_include op_eq "checked" false) tasks (.vInt 0) with
  | error e => rw [hloop] at h; exact absurd h (by simp)
  | ok p =>
    obtain ⟨r, vfin⟩ := p
    rw [hloop] at h
    simp only [Except.ok.injEq] at h
    subst h
    obtain ⟨w, w', hw, hstep⟩ :=
      filter_loop_mem (step_include op_eq "checked" false) checkedState
        (fun u w b w' hPw hs => by
          unfold step_include at hs
          split at hs
          · exact absurd hs (by simp)
          · rename_i tv v' hgv
            have hst := gv_checked_state "checked" u w tv v' hPw hgv
            split at hs
            · simp only [Except.ok.injEq, Prod.mk.injEq] at hs
              rw [← hs.2]; exact hst
            · split at hs
              · exact absurd hs (by simp)
              · simp only [Except.ok.injEq, Prod.mk.injEq] at hs
                rw [← hs.2]; exact hst)
        tasks (.vInt 0) r vfin (Or.inl rfl) hloop t ht
    have hrej := checked_one_rejected t w hw hl
    rw [hstep] at hrej
    exact absurd (Except.ok.inj hrej) (by simp)

/-- The pre-filter retains every task whose completion flag is missing or
null. -/
theorem checked_filter_retains_flagless (tasks pre : List Task)
    (h : filter_tasks tasks "checked" "eq" (.vInt 0) "include" .vNone none (.b false) = .ok pre) :
    ∀ t ∈ tasks, lookupTaskValue "checked" .vNone t = .ok .vNone → t ∈ pre := by
  rw [checked_filter_shape] at h
  intro t ht hl
  cases hloop : filter_loop (step_include op_eq "checked" false) tasks (.vInt 0) with
  | error e => rw [hloop] at h; exact absurd h (by simp)
  | ok p =>
    obtain ⟨r, vfin⟩ := p
    rw [hloop] at h
    simp only [Except.ok.injEq] at h
    subst h
    exact filter_loop_mem_of_true (step_include op_eq "checked" false) t
      (fun w => ⟨w, checked_missing_accepted t w hl⟩) tasks (.vInt 0) r vfin ht hloop

/-- Any successful run of the `due`/`overdue` branch of `special_is_filter`
factors as the completed-task pre-exclusion followed by a due-date
comparison filter on the pre-excluded list. -/
theorem special_due_shape (ops : ExtOps) (tasks : List Task) (args : List String)
    (r : List Task) (hdue : dueTokens args = true)
    (h : special_is_filter ops tasks args = .ok r) :
    ∃ (pre : List Task) (op2 : String) (v2 : Int) (n2 : Bool),
      filter_tasks tasks "checked" "eq" (.vInt 0) "include" .vNone none (.b false) = .ok pre ∧
      filter_tasks pre "due_date_dt" op2 (.vDate v2) "exclude" .vNone none (.b n2) = .ok r := by
  cases args with
  | nil => exact absurd hdue (by simp [dueTokens])
  | cons a0 rest =>
    simp only [special_is_filter] at h
    simp only [dueTokens] at hdue
    split at h
    · rename_i heq
      rw [heq] at hdue
      exact absurd hdue (by simp)
    · rename_i b0 brest heq
      rw [heq] at hdue
      split at h
      · split at h
        · exact absurd h (by simp)
        · split at h
          · exact absurd h (by simp)
          · rename_i op_name convert when timefmt hsel
            split at h
            · exact absurd h (by simp)
            · split at h
              · exact absurd h (by simp)
              · rename_i pre hpre
                exact ⟨pre, op_name, _, _, hpre, h⟩
      · rename_i hb0
        simp only at hdue
        exact absurd hdue hb0

/-- `filter_tasks` with policy `exclude` reshaped to its evaluation loop. -/
theorem filter_tasks_exclude_shape (tasks : List Task) (k op : String) (v d : Value)
    (vt : Option String) (neg : Bool) :
    filter_tasks tasks k op v "exclude" d vt (.b neg)
      = match filter_prepare k op v "exclude" d vt with
        | .error e => .error e
        | .ok (opf, v', _) =>
          match filter_loop (step_exclude opf k neg) tasks v' with
          | .error e => .error e
          | .ok (r, _) => .ok r := by
  unfold filter_tasks
  cases filter_prepare k op v "exclude" d vt with
  | error e => rfl
  | ok p =>
    obtain ⟨opf, v', d'⟩ := p
    rfl

/-! ## Claim theorems -/

/-- C1.  The claim (and the docstring of `filter_tasks`) says a
present-but-null attribute is treated exactly like an absent one under every
missing policy.  The code violates this for policy `default`: `dict.get`
applies the fallback only to an absent key, so on the failing input
`filter_tasks([ {"k": None}, {} ], "k", "eq", "x", missing="default",
default="x")` the null task is compared as `op(None, "x")` and dropped while
the absent task is compared as `op("x", "x")` and kept — the two tasks are
treated differently. -/
theorem filter_default_null_vs_missing_divergence :
    filter_tasks [[("k", .vNone)], []] "k" "eq" (.vStr "x") "default" (.vStr "x") none (.b false)
      = .ok [[]] := by decide

/-- C2.  Whenever `filter_tasks` returns a list, that list is a subsequence
of the input: every output task occurs in the input, in the same relative
order, with no duplication or addition.  (The embedding is a pure function
of the input list, which also witnesses that the filter never mutates the
input's membership — it only selects from it.) -/
theorem filter_tasks_returns_sublist (tasks : List Task) (taskkey op_name : String)
    (value : Value) (missing : String) (defaultv : Value) (vt : Option String) (neg : NegArg)
    (r : List Task)
    (h : filter_tasks tasks taskkey op_name value missing defaultv vt neg = .ok r) :
    r.Sublist tasks :=
  filter_tasks_sublist_aux tasks taskkey op_name value missing defaultv vt neg r h

/-- Witness for C2 at a concrete input. -/
theorem filter_tasks_returns_sublist_witness :
    filter_tasks [[("k", .vStr "x")], []] "k" "eq" (.vStr "x") "exclude" .vNone none (.b false)
      = .ok [[("k", .vStr "x")]]
    ∧ ([[("k", .vStr "x")]] : List Task).Sublist [[("k", .vStr "x")], []] :=
  ⟨by decide,
   filter_tasks_returns_sublist [[("k", .vStr "x")], []] "k" "eq" (.vStr "x") "exclude"
     .vNone none (.b false) [[("k", .vStr "x")]] (by decide)⟩

/-- C3 (counterexample).  The claim quantifies over every filter spec, but
with missing-policy `include` a task whose attribute is absent is kept by
both the negated and the un-negated run: the two results are not disjoint
and their union is not the set of attribute-present tasks. -/
theorem filter_negate_union_counterexample :
    filter_tasks [[]] "k" "eq" (.vStr "x") "include" .vNone none (.b false) = .ok [[]]
    ∧ filter_tasks [[]] "k" "eq" (.vStr "x") "include" .vNone none (.b true) = .ok [[]]
    ∧ presentB "k" [] = false
    ∧ ¬ ((([[]] : List Task) ++ [[]]).Perm (([[]] : List Task).filter (presentB "k")))
    ∧ ¬ (∀ t ∈ ([[]] : List Task), t ∉ ([[]] : List Task)) := by
  refine ⟨by decide, by decide, by decide, ?_, by simp⟩
  intro hperm
  have := hperm.length_eq
  simp [List.filter, presentB, lookupTaskValue, dictGet, Value.isVNone] at this

/-- C3 (amended).  For missing-policy `exclude`: the negated and un-negated
runs of `filter_tasks` together contain, with multiplicity, exactly the
tasks whose attribute is present (non-null); hence for a duplicate-free
input the two results are disjoint, and a task dropped for a missing
attribute is absent from both regardless of `negate`.  Moreover the
per-task `exclude` evaluation keeps a present task exactly when
`op(task_value, comparison_value) != negate`, the comparison value being
the (possibly coerced) shared value at that point. -/
theorem filter_exclude_negate_partition (tasks : List Task) (k op : String) (v d : Value)
    (vt : Option String) (r0 r1 : List Task)
    (h0 : filter_tasks tasks k op v "exclude" d vt (.b false) = .ok r0)
    (h1 : filter_tasks tasks k op v "exclude" d vt (.b true) = .ok r1) :
    (r0 ++ r1).Perm (tasks.filter (presentB k))
    ∧ (tasks.Nodup → ∀ t ∈ r0, t ∉ r1)
    ∧ (∀ (opf : OpFn) (neg : Bool) (t : Task) (w tv w' : Value) (b : Bool),
        get_value_step k .vNone t w = .ok (tv, w') → tv.isVNone = false →
        opf tv w' = .ok b →
        step_exclude opf k neg t w = .ok (b != neg, w')) := by
  rw [filter_tasks_exclude_shape] at h0 h1
  have hstep_rule : ∀ (opf : OpFn) (neg : Bool) (t : Task) (w tv w' : Value) (b : Bool),
      get_value_step k .vNone t w = .ok (tv, w') → tv.isVNone = false →
      opf tv w' = .ok b →
      step_exclude opf k neg t w = .ok (b != neg, w') := by
    intro opf neg t w tv w' b hgv htv hop
    unfold step_exclude
    rw [hgv]
    simp [htv, hop]
  split at h0
  · exact absurd h0 (by simp)
  · rename_i opf v' d' hp
    split at h1
    · rename_i e hp1
      rw [hp] at hp1
      exact absurd hp1 (by simp)
    · rename_i opf1 v1 d1 hp1
      rw [hp] at hp1
      simp only [Except.ok.injEq, Prod.mk.injEq] at hp1
      obtain ⟨he1, he2, he3⟩ := hp1
      subst he1
      subst he2
      subst he3
      split at h0
      · exact absurd h0 (by simp)
      · rename_i ra va hloop0
        simp only [Except.ok.injEq] at h0
        subst h0
        obtain ⟨rb, hloop1, hperm⟩ :=
          filter_loop_pair (step_exclude opf k false) (step_exclude opf k true) (presentB k)
            (fun t w => step_exclude_sync opf k t w)
            (fun t w b w' hq hs => step_exclude_not_present opf k t w w' b hq hs)
            tasks v' ra va hloop0
        split at h1
        · rename_i e hl1
          rw [hloop1] at hl1
          exact absurd hl1 (by simp)
        · rename_i rc vc hl1
          rw [hloop1] at hl1
          simp only [Except.ok.injEq, Prod.mk.injEq] at hl1
          simp only [Except.ok.injEq] at h1
          subst h1
          rw [← hl1.1]
          refine ⟨hperm, ?_, hstep_rule⟩
          intro hnd t ht0 ht1
          have hfn : (tasks.filter (presentB k)).Nodup := hnd.filter _
          have happ : (ra ++ rb).Nodup := (hperm.nodup_iff).mpr hfn
          rw [List.nodup_append] at happ
          exact happ.2.2 ht0 ht1

/-- Witness for C3 (amended) at a concrete input. -/
theorem filter_exclude_negate_partition_witness :
    filter_tasks [[("k", .vStr "a")], []] "k" "eq" (.vStr "a") "exclude" .vNone none (.b false)
      = .ok [[("k", .vStr "a")]]
    ∧ filter_tasks [[("k", .vStr "a")], []] "k" "eq" (.vStr "a") "exclude" .vNone none (.b true)
      = .ok []
    ∧ ((([[("k", .vStr "a")]] : List Task) ++ []).Perm
        (([[("k", .vStr "a")], []] : List Task).filter (presentB "k"))
      ∧ (([[("k", .vStr "a")], []] : List Task).Nodup →
          ∀ t ∈ ([[("k", .vStr "a")]] : List Task), t ∉ ([] : List Task))
      ∧ (∀ (opf : OpFn) (neg : Bool) (t : Task) (w tv w' : Value) (b : Bool),
          get_value_step "k" .vNone t w = .ok (tv, w') → tv.isVNone = false →
          opf tv w' = .ok b →
          step_exclude opf "k" neg t w = .ok (b != neg, w'))) :=
  ⟨by decide, by decide,
   filter_exclude_negate_partition [[("k", .vStr "a")], []] "k" "eq" (.vStr "a") .vNone none
     [[("k", .vStr "a")]] [] (by decide) (by decide)⟩

/-- C4.  The coercion example: a task with integer priority 3 matches the
string comparison value "3" under `eq`, because `get_value` coerces the
comparison value to the task value's type (via that type's constructor)
before the operator runs — and never coerces the task value: the task value
handed to the operator is exactly the looked-up one. -/
theorem filter_coerces_comparison_value :
    (filter_tasks [[("priority", .vInt 3)]] "priority" "eq" (.vStr "3") "exclude" .vNone none
        (.b false) = .ok [[("priority", .vInt 3)]])
    ∧ (∀ (k : String) (t : Task) (v tv : Value),
        lookupTaskValue k .vNone t = .ok tv → tv.isVNone = false → typeName tv ≠ typeName v →
        get_value_step k .vNone t v = (coerceTo tv v).map (fun w => (tv, w)))
    ∧ (∀ (k : String) (d : Value) (t : Task) (v tv w : Value),
        get_value_step k d t v = .ok (tv, w) → lookupTaskValue k d t = .ok tv) := by
  refine ⟨by decide, ?_, ?_⟩
  · intro k t v tv hl hnn hty
    exact get_value_step_coerces k .vNone t v tv hl hnn hty
  · intro k d t v tv w h
    exact get_value_step_fst k d t v tv w h

/-- Witness for C4's general coercion-direction conjuncts at the concrete
priority-3 input. -/
theorem filter_coerces_comparison_value_witness :
    get_value_step "priority" .vNone [("priority", .vInt 3)] (.vStr "3")
      = (coerceTo (.vInt 3) (.vStr "3")).map (fun w => ((.vInt 3 : Value), w))
    ∧ lookupTaskValue "priority" .vNone [("priority", .vInt 3)] = .ok (.vInt 3) :=
  ⟨filter_coerces_comparison_value.2.1 "priority" [("priority", .vInt 3)] (.vStr "3") (.vInt 3)
     (by decide) (by decide) (by decide),
   filter_coerces_comparison_value.2.2 "priority" .vNone [("priority", .vInt 3)] (.vStr "3")
     (.vInt 3) (.vInt 3) (by decide)⟩

/-- C5.  The one-token shorthand of the adaptor equals the direct
`filter_tasks` call with the per-attribute default operator (`iglob` for
`content`), and the general dispatch rule holds: an optional leading `not`
sets negate; one remaining token is the value under the default operator;
two remaining tokens are operator and value. -/
theorem content_filter_shorthand_equivalence :
    (∀ L : List Task, content_filter L ["RS123*"]
        = filter_tasks L "content" "iglob" (.vStr "RS123*") "exclude" .vNone none (.b false))
    ∧ (∀ (L : List Task) (k dop v : String), v ≠ "not" →
        generic_args_filter_adaptor L k [v] dop
          = filter_tasks L k dop (.vStr v) "exclude" .vNone none (.b false))
    ∧ (∀ (L : List Task) (k dop v : String),
        generic_args_filter_adaptor L k ["not", v] dop
          = filter_tasks L k dop (.vStr v) "exclude" .vNone none (.b true))
    ∧ (∀ (L : List Task) (k dop o v : String), o ≠ "not" →
        generic_args_filter_adaptor L k [o, v] dop
          = filter_tasks L k o (.vStr v) "exclude" .vNone none (.b false))
    ∧ (∀ (L : List Task) (k dop o v : String),
        generic_args_filter_adaptor L k ["not", o, v] dop
          = filter_tasks L k o (.vStr v) "exclude" .vNone none (.b true)) := by
  refine ⟨fun L => rfl, ?_, fun L k dop v => rfl, ?_, fun L k dop o v => rfl⟩
  · intro L k dop v hv
    have hb : (v == "not") = false := by simp [hv]
    simp [generic_args_filter_adaptor, hb]
  · intro L k dop o v ho
    have hb : (o == "not") = false := by simp [ho]
    simp [generic_args_filter_adaptor, hb]

/-- Witness for C5's hypothesis-bearing dispatch conjuncts. -/
theorem content_filter_shorthand_equivalence_witness :
    generic_args_filter_adaptor [] "content" ["RS123*"] "iglob"
      = filter_tasks [] "content" "iglob" (.vStr "RS123*") "exclude" .vNone none (.b false)
    ∧ generic_args_filter_adaptor [] "content" ["startswith", "RS123"] "iglob"
      = filter_tasks [] "content" "startswith" (.vStr "RS123") "exclude" .vNone none (.b false) :=
  ⟨content_filter_shorthand_equivalence.2.1 [] "content" "iglob" "RS123*" (by decide),
   content_filter_shorthand_equivalence.2.2.2.1 [] "content" "iglob" "startswith" "RS123"
     (by decide)⟩

/-- C6 (counterexample).  The default value is transformed only when it is
truthy (`if default and missing == "default"`), so for the falsy default 0
with transform `str` the absent-attribute task is *not* compared using
`str(0) = "0"`: the untransformed integer 0 triggers an int-coercion of the
comparison value "a", which raises, while a task whose attribute really is
"0" is compared without error and dropped. -/
theorem filter_default_transform_counterexample :
    truthy (.vInt 0) = false
    ∧ pyStrOf (.vInt 0) = "0"
    ∧ filter_tasks [[]] "k" "eq" (.vStr "a") "default" (.vInt 0) (some "str") (.b false)
        = .error (.valueError "invalid literal for int")
    ∧ filter_tasks [[("k", .vStr "0")]] "k" "eq" (.vStr "a") "default" (.vInt 0) (some "str")
        (.b false) = .ok [] :=
  ⟨rfl, by decide, by decide, by decide⟩

/-- `normNegArg` on a boolean argument is the identity. -/
theorem normNegArg_b (n : Bool) : normNegArg (.b n) = n := rfl

/-- `mkStep` with policy `default` selects the default-policy evaluation. -/
theorem mkStep_default (opf : OpFn) (k : String) (d : Value) (n : Bool) :
    mkStep opf k "default" d n = some (step_default opf k d n) := rfl

/-- `get_value` on the empty task record returns the supplied fallback. -/
theorem lookupTaskValue_empty (k : String) (d : Value) :
    lookupTaskValue k d [] = .ok d := by
  unfold lookupTaskValue
  rfl

/-- `get_value` on a single-binding record returns the bound value. -/
theorem lookupTaskValue_single (k : String) (d w : Value) :
    lookupTaskValue k d [(k, w)] = .ok w := by
  unfold lookupTaskValue
  by_cases hk : k = "due"
  · subst hk
    rfl
  · have hb : (k == "due") = false := by simp [hk]
    simp [dictGet, hb]

/-- With policy `default`, a non-placeholder truthy default and a resolved
transform that succeeds on it, `filter_prepare` transforms both the
comparison value and the default. -/
theorem filter_prepare_default_transformed (k op : String) (v d : Value) (s : String)
    (f : Value → Except Err Value) (fd : Value)
    (hs1 : s ≠ "_") (hs2 : s ≠ "__None__")
    (hf : resolveTransform (some s) = .ok (some f))
    (hd1 : d ≠ .vStr "_") (hd2 : d ≠ .vStr "__None__") (hdt : truthy d = true)
    (hfd : f d = .ok fd) :
    filter_prepare k op v "default" d (some s)
      = match precheck k op v with
        | .error e => .error e
        | .ok _ =>
          match binary_operators op with
          | none => .error (.attributeError op)
          | some opf =>
            match f v with
            | .error e => .error e
            | .ok v' => .ok (opf, v', fd) := by
  have hd : (if d = Value.vStr "_" ∨ d = Value.vStr "__None__" then Value.vNone else d) = d :=
    if_neg (by rintro (h | h); exacts [hd1 h, hd2 h])
  have hs : (if s = "_" ∨ s = "__None__" then (none : Option String) else some s) = some s :=
    if_neg (by rintro (h | h); exacts [hs1 h, hs2 h])
  unfold filter_prepare
  cases precheck k op v with
  | error e => rfl
  | ok u =>
    simp only [hd, hs, hf, hdt, hfd]
    cases binary_operators op with
    | none => rfl
    | some opf =>
      cases f v with
      | error e => rfl
      | ok v' => simp

/-- C6 (amended).  With missing-policy `default`, a resolved value transform
and a truthy (non-placeholder) default value `d`, a task whose attribute is
absent behaves exactly like a task whose attribute value is `transform(d)`:
the two single-task runs accept or reject (or fail) identically.  For a
falsy default the source skips the transform (`if default and
missing == "default"`), as the counterexample shows. -/
theorem filter_default_truthy_transformed (k op : String) (v d : Value) (s : String)
    (f : Value → Except Err Value) (neg : Bool)
    (hs1 : s ≠ "_") (hs2 : s ≠ "__None__")
    (hf : resolveTransform (some s) = .ok (some f))
    (hd1 : d ≠ .vStr "_") (hd2 : d ≠ .vStr "__None__")
    (hdt : truthy d = true)
    (fd : Value) (hfd : f d = .ok fd) :
    (filter_tasks [[]] k op v "default" d (some s) (.b neg)).map List.length
      = (filter_tasks [[(k, fd)]] k op v "default" d (some s) (.b neg)).map List.length := by
  unfold filter_tasks
  rw [filter_prepare_default_transformed k op v d s f fd hs1 hs2 hf hd1 hd2 hdt hfd]
  cases precheck k op v with
  | error e => rfl
  | ok u =>
    cases binary_operators op with
    | none => rfl
    | some opf =>
      cases f v with
      | error e => rfl
      | ok v' =>
        simp only [mkStep_default, normNegArg_b]
        have hstep1 : step_default opf k fd neg [] v'
            = step_default opf k fd neg [(k, fd)] v' := by
          unfold step_default get_value_step
          rw [lookupTaskValue_empty, lookupTaskValue_single]
        simp only [filter_loop, hstep1]
        cases hsd : step_default opf k fd neg [(k, fd)] v' with
        | error e => rfl
        | ok p =>
          obtain ⟨b, w⟩ := p
          cases b <;> rfl

/-- Witness for C6 (amended) at a concrete input: transform `int`, truthy
default "1". -/
theorem filter_default_truthy_transformed_witness :
    (filter_tasks [[]] "k" "eq" (.vStr "1") "default" (.vStr "1") (some "int")
        (.b false)).map List.length
      = (filter_tasks [[("k", .vInt 1)]] "k" "eq" (.vStr "1") "default" (.vStr "1") (some "int")
          (.b false)).map List.length :=
  filter_default_truthy_transformed "k" "eq" (.vStr "1") (.vStr "1") "int" pyInt false
    (by decide) (by decide) rfl (by decide) (by decide) (by decide)
    (.vInt 1) (by decide)

/-- C7.  The `due or overdue` rewrite of `special_is_filter` is dead code:
the source compares the slice `args[0:2]` (two elements, and a tuple)
against three-element lists, which is never equal.  Hence
`-is due or overdue` tries to parse the token `or` as a date and fails with
the date-parse error the claim says cannot happen, and
`-is overdue or due` silently ignores the trailing tokens and applies plain
overdue semantics — here dropping a task due today at instant 480 that the
claimed equivalent `due before tomorrow` keeps. -/
theorem special_is_due_or_overdue_divergence :
    special_is_filter sampleExtOps [] ["due", "or", "overdue"]
      = .error (.valueError "Could not parse due date")
    ∧ special_is_filter sampleExtOps [[("due_date_dt", .vDate 480)]] ["overdue", "or", "due"]
      = .ok []
    ∧ special_is_filter sampleExtOps [[("due_date_dt", .vDate 480)]]
        ["due", "before", "tomorrow"]
      = .ok [[("due_date_dt", .vDate 480)]] :=
  ⟨by decide, by decide, by decide⟩

/-- C8.  For every accepted `due`/`overdue` token sequence, a successful run
of `special_is_filter` contains no task whose completion flag equals 1: the
completed tasks are dropped by the `checked eq 0 include` pre-filter before
the due-date comparison, regardless of the negate flag and of the date
expression; and that pre-exclusion step retains every task lacking the
completion flag (absent or null). -/
theorem special_due_excludes_completed (ops : ExtOps) (tasks : List Task)
    (args : List String) (r : List Task)
    (hdue : dueTokens args = true)
    (h : special_is_filter ops tasks args = .ok r) :
    (∀ t ∈ r, lookupTaskValue "checked" .vNone t ≠ .ok (.vInt 1))
    ∧ (∀ pre : List Task,
        filter_tasks tasks "checked" "eq" (.vInt 0) "include" .vNone none (.b false) = .ok pre →
        ∀ t ∈ tasks, lookupTaskValue "checked" .vNone t = .ok .vNone → t ∈ pre) := by
  constructor
  · obtain ⟨pre, op2, v2, n2, hpre, hsec⟩ := special_due_shape ops tasks args r hdue h
    intro t ht
    have hsub : r.Sublist pre :=
      filter_tasks_sublist_aux pre "due_date_dt" op2 (.vDate v2) "exclude" .vNone none
        (.b n2) r hsec
    exact checked_filter_excludes_completed tasks pre hpre t (hsub.subset ht)
  · intro pre hpre t ht hl
    exact checked_filter_retains_flagless tasks pre hpre t ht hl

/-- Witness for C8 on a concrete run: `-is overdue` over a single completed
task returns the empty list. -/
theorem special_due_excludes_completed_witness :
    (∀ t ∈ ([] : List Task), lookupTaskValue "checked" .vNone t ≠ .ok (.vInt 1))
    ∧ (∀ pre : List Task,
        filter_tasks [[("checked", .vInt 1)]] "checked" "eq" (.vInt 0) "include" .vNone none
          (.b false) = .ok pre →
        ∀ t ∈ ([[("checked", .vInt 1)]] : List Task),
          lookupTaskValue "checked" .vNone t = .ok .vNone → t ∈ pre) :=
  special_due_excludes_completed sampleExtOps [[("checked", .vInt 1)]] ["overdue"] []
    (by decide) (by decide)

/-- C9.  In the default timezone mode (the `date_string` sentinel),
`reschedule_tasks` queues exactly one update call per task, carrying the
new date verbatim as the service's due-string field, leaves every task's
data fields unchanged, returns the task list, and performs no local date
parsing or arithmetic: the result does not depend on the date collaborators
at all. -/
theorem reschedule_date_string_mode (ops ops2 : ReschedOps) (tasks : List Item)
    (nd : String) (ul cr : Bool) :
    reschedule_tasks ops tasks nd "date_string" ul cr
      = .ok (tasks.map (fun t => pushUpdate t (dateStringUpdateCall t nd)))
    ∧ reschedule_tasks ops tasks nd "date_string" ul cr
      = reschedule_tasks ops2 tasks nd "date_string" ul cr
    ∧ (∀ t : Item,
        (pushUpdate t (dateStringUpdateCall t nd)).data = t.data
        ∧ (pushUpdate t (dateStringUpdateCall t nd)).updates
            = t.updates ++ [dateStringUpdateCall t nd]
        ∧ dueStringOfCall (dateStringUpdateCall t nd) = some nd) := by
  refine ⟨rfl, rfl, ?_⟩
  intro t
  refine ⟨rfl, rfl, ?_⟩
  unfold dueStringOfCall dateStringUpdateCall
  cases hdue : (dictGet t.data "due").isSome with
  | true => rfl
  | false => rfl

/-- C10.  The command-line placeholder normalization of `filter_tasks`: a
`default` or `value_transform` argument equal to `_` or `__None__` behaves
exactly like `None`, and a string `negate` argument whose lowercase form is
`false`, `_`, `__none__` or `0` behaves exactly like `False`. -/
theorem filter_placeholder_normalization :
    (∀ (L : List Task) (k op : String) (v : Value) (m : String) (vt : Option String)
        (n : NegArg),
        filter_tasks L k op v m (.vStr "_") vt n = filter_tasks L k op v m .vNone vt n)
    ∧ (∀ (L : List Task) (k op : String) (v : Value) (m : String) (vt : Option String)
        (n : NegArg),
        filter_tasks L k op v m (.vStr "__None__") vt n = filter_tasks L k op v m .vNone vt n)
    ∧ (∀ (L : List Task) (k op : String) (v : Value) (m : String) (d : Value) (n : NegArg),
        filter_tasks L k op v m d (some "_") n = filter_tasks L k op v m d none n)
    ∧ (∀ (L : List Task) (k op : String) (v : Value) (m : String) (d : Value) (n : NegArg),
        filter_tasks L k op v m d (some "__None__") n = filter_tasks L k op v m d none n)
    ∧ (∀ (L : List Task) (k op : String) (v : Value) (m : String) (d : Value)
        (vt : Option String) (s : String),
        (lowerStr s = "false" ∨ lowerStr s = "_" ∨ lowerStr s = "__none__" ∨ lowerStr s = "0") →
        filter_tasks L k op v m d vt (.s s) = filter_tasks L k op v m d vt (.b false)) := by
  refine ⟨fun L k op v m vt n => rfl, fun L k op v m vt n => rfl,
    fun L k op v m d n => rfl, fun L k op v m d n => rfl, ?_⟩
  intro L k op v m d vt s hs
  have hn : normNegArg (.s s) = normNegArg (.b false) := by
    unfold normNegArg
    rcases hs with h | h | h | h <;> simp [h]
  unfold filter_tasks
  rw [hn]

/-- Witness for C10's negate conjunct at the concrete string `False`. -/
theorem filter_placeholder_normalization_witness :
    filter_tasks [] "k" "eq" (.vStr "x") "exclude" .vNone none (.s "False")
      = filter_tasks [] "k" "eq" (.vStr "x") "exclude" .vNone none (.b false) :=
  filter_placeholder_normalization.2.2.2.2 [] "k" "eq" (.vStr "x") "exclude" .vNone none "False"
    (Or.inl (by decide))

end ActionCmds
